import Mathlib

/-!
The OpenAPI bundler (`main.go`)

A shallow embedding of the bundler: the document types, `loadYAMLFile`,
`saveYAMLFile`, `bundleOpenAPIFiles` and `main`, followed by the properties of
the merge that the specification states.

Conventions of the embedding:

* a Go `map[string]interface{}` is an association list with pairwise distinct
  keys (`AList`); `m[k] = v` is `AList.insert`, `for k, v := range m` visits the
  entries in the order of the list, and two maps are the same map when they
  agree on `lookup` for every key;
* a Go `error` is its message (`Error()`), and `fmt.Errorf` with `%w` builds the
  message by concatenation;
* the operating system and the YAML library are not part of the program: their
  results are the fields of `World`.  `os.ReadDir`, `os.ReadFile` and `os.Getwd`
  observe the state `σ` of the filesystem, `os.WriteFile` also changes it;
* what the program prints with `fmt.Printf`/`fmt.Println` is collected, one list
  element per call.
-/

namespace OpenAPIBundle

/-! ## Data model -/

structure Info where
  Title : String
  Description : String
  Version : String
  deriving DecidableEq, Repr

structure ExternalDocs where
  Description : String
  URL : String
  deriving DecidableEq, Repr

structure Server where
  URL : String
  deriving DecidableEq, Repr

structure Tag where
  Name : String
  Description : String
  deriving DecidableEq, Repr

/-- A Go `map[string]interface{}` whose values are of type `V`. -/
abbrev GoMap (V : Type) := AList (fun _ : String => V)

structure OpenAPISpec (V : Type) where
  OpenAPI : String
  Info : Info
  ExternalDocs : ExternalDocs
  Servers : List Server
  Tags : List Tag
  Paths : GoMap V
  Components : GoMap V

/-- The target of the components file; a `nil` map is the empty map (only its
`len` is inspected). -/
structure ComponentsWrapper (V : Type) where
  Components : GoMap V

/-- One `os.DirEntry`: what the program reads of it is `Name()` and `IsDir()`. -/
structure DirEntry where
  name : String
  isDir : Bool
  deriving DecidableEq, Repr

/-! ## The environment -/

/-- Results of the calls into the operating system and the libraries. -/
structure World (σ V : Type) where
  /-- Result of `os.Getwd`. -/
  getwd : σ → Except String String
  /-- Result of `os.ReadDir` for a path. -/
  readDir : σ → String → Except String (List DirEntry)
  /-- Result of `os.ReadFile` for a path. -/
  readFile : σ → String → Except String String
  /-- Result of `os.WriteFile path data perm`: the error, if any, and the filesystem
  afterwards. -/
  writeFile : σ → String → String → Nat → Option String × σ
  /-- Result of `filepath.Join` for the given elements. -/
  join : List String → String
  /-- Result of `yaml.Unmarshal` into a `*map[string]interface{}`. -/
  unmarshalMap : String → Except String (GoMap V)
  /-- Result of `yaml.Unmarshal` into a `*ComponentsWrapper`. -/
  unmarshalComponents : String → Except String (ComponentsWrapper V)
  /-- Result of `yaml.Marshal` of an `OpenAPISpec`. -/
  marshal : OpenAPISpec V → Except String String

/-! ## Library functions with a fixed meaning -/

/-- The loop of `filepath.Ext` over the reversed path: the suffix that starts at
the last dot of the last path element, `acc` being the characters already
passed. -/
def extScan : List Char → List Char → List Char
  | [], _ => []
  | c :: rest, acc =>
    if c = '/' then [] else if c = '.' then c :: acc else extScan rest (c :: acc)

/-- The function `filepath.Ext`. -/
def Ext (path : String) : String := ⟨extScan path.data.reverse []⟩

/-- Outcome of `flag.Parse` for the flag set of `main`. -/
inductive FlagResult where
  /-- the command line was accepted; the value of `-output` -/
  | parsed (output : String)
  /-- help was asked for with `-h` or `-help` (`flag.ErrHelp`) -/
  | help
  /-- the command line was rejected with this message -/
  | failed (msg : String)
  deriving DecidableEq, Repr

/-- The function `flag.Parse` for a flag set whose only flag is the string flag
`output`; `cur` is the current value of the flag. -/
def flagParse : List String → String → FlagResult
  | [], cur => .parsed cur
  | s :: rest, cur =>
    match s.data with
    | '-' :: c :: cs =>
      if c = '-' ∧ cs = [] then .parsed cur
      else
        let name := if c = '-' then cs else c :: cs
        match name with
        | [] => .failed ("bad flag syntax: " ++ s)
        | n0 :: ns =>
          if n0 = '-' ∨ n0 = '=' then .failed ("bad flag syntax: " ++ s)
          else
            let key : String := ⟨n0 :: ns.takeWhile (fun x => x ≠ '=')⟩
            let tail := ns.dropWhile (fun x => x ≠ '=')
            if key = "output" then
              match tail with
              | _ :: v => flagParse rest ⟨v⟩
              | [] =>
                match rest with
                | v :: rest' => flagParse rest' v
                | [] => .failed ("flag needs an argument: -" ++ key)
            else if key = "help" ∨ key = "h" then .help
            else .failed ("flag provided but not defined: -" ++ key)
    | _ => .parsed cur

/-! ## The program -/

section Program

variable {σ V : Type}

/-- The function `loadYAMLFile`; `unmarshal` is `yaml.Unmarshal` for the type of
the target. -/
def loadYAMLFile {α : Type} (w : World σ V) (s : σ) (unmarshal : String → Except String α)
    (filePath : String) : Except String α :=
  match w.readFile s filePath with
  | .error err => .error ("error reading file " ++ filePath ++ ": " ++ err)
  | .ok data =>
    match unmarshal data with
    | .error err => .error ("error unmarshaling YAML from " ++ filePath ++ ": " ++ err)
    | .ok target => .ok target

/-- The function `saveYAMLFile`: the returned error and the filesystem afterwards. -/
def saveYAMLFile (w : World σ V) (s : σ) (filePath : String) (data : OpenAPISpec V) :
    Option String × σ :=
  match w.marshal data with
  | .error err => (some ("error marshaling data to YAML: " ++ err), s)
  | .ok yamlBytes =>
    match w.writeFile s filePath yamlBytes 0o644 with
    | (some err, s') => (some ("error writing file " ++ filePath ++ ": " ++ err), s')
    | (none, s') => (none, s')

/-- The document as `bundleOpenAPIFiles` initialises it. -/
def initialSpec : OpenAPISpec V where
  OpenAPI := "3.0.2"
  Info :=
    { Title := "Creo Collaboration service"
      Description := "API specification for Creo Collaboration service"
      Version := "1.0.71" }
  ExternalDocs :=
    { Description := "Error Codes Documentation"
      URL := "https://gitlab.rd-services.aws.ptc.com/creo/cgm/collabsvc/-/blob/master/errors/error_codes.go" }
  Servers := [{ URL := "https://creo.staging.atlas.ptc.com/collabsvc/api/cs" }]
  Tags :=
    [ { Name := "Sessions", Description := "Session endpoints" },
      { Name := "Branches", Description := "Branches endpoints" },
      { Name := "Checkpoints", Description := "Checkpoint endpoints" },
      { Name := "Chapters", Description := "Chapters endpoints" },
      { Name := "Comments", Description := "Comments endpoints" },
      { Name := "ConnectionSpeed", Description := "ConnectionSpeed endpoints" } ]
  Paths := ∅
  Components := ∅

/-- The inner loop `for k, v := range tagData { bundled.Paths[k] = v }`. -/
def rangeAssign (paths tagData : GoMap V) : GoMap V :=
  tagData.foldl (fun acc k v => acc.insert k v) paths

/-- One iteration of `for _, fileEntry := range files`, on the document and the
lines printed so far. -/
def fragmentStep (w : World σ V) (s : σ) (tagsFolder : String)
    (st : OpenAPISpec V × List String) (fileEntry : DirEntry) : OpenAPISpec V × List String :=
  if !fileEntry.isDir && Ext fileEntry.name == ".yaml" then
    let filePath := w.join [tagsFolder, fileEntry.name]
    match loadYAMLFile w s w.unmarshalMap filePath with
    | .error err => (st.1, st.2 ++ ["Warning: " ++ err ++ "\n"])
    | .ok tagData => ({ st.1 with Paths := rangeAssign st.1.Paths tagData }, st.2)
  else st

/-- The loop over the directory listing. -/
def mergeFragments (w : World σ V) (s : σ) (tagsFolder : String) (files : List DirEntry)
    (st : OpenAPISpec V × List String) : OpenAPISpec V × List String :=
  files.foldl (fragmentStep w s tagsFolder) st

/-- The components step of `bundleOpenAPIFiles`. -/
def loadComponents (w : World σ V) (s : σ) (componentsFile : String)
    (st : OpenAPISpec V × List String) : OpenAPISpec V × List String :=
  match loadYAMLFile w s w.unmarshalComponents componentsFile with
  | .error err =>
    (st.1, st.2 ++ ["Warning: " ++ err ++ "\n", "No valid components will be included.\n"])
  | .ok componentsData =>
    if componentsData.Components.entries.length > 0 then
      ({ st.1 with Components := componentsData.Components }, st.2)
    else
      (st.1, st.2 ++
        ["Warning: 'components' section is empty or not found in " ++ componentsFile ++ "\n"])

/-- The body of `bundleOpenAPIFiles` between the directory listing and the call
of `saveYAMLFile`: the document handed to the serializer and the lines printed,
for the listing `files`. -/
def assemble (w : World σ V) (s : σ) (tagsFolder componentsFile : String)
    (files : List DirEntry) : OpenAPISpec V × List String :=
  loadComponents w s componentsFile (mergeFragments w s tagsFolder files (initialSpec, []))

/-- What a call of `bundleOpenAPIFiles` leaves behind. -/
structure Outcome (σ : Type) where
  /-- the returned error, `none` for `nil` -/
  err : Option String
  /-- the lines printed -/
  stdout : List String
  /-- the filesystem afterwards -/
  state : σ

/-- The function `bundleOpenAPIFiles`. -/
def bundleOpenAPIFiles (w : World σ V) (s : σ) (tagsFolder componentsFile outputFile : String) :
    Outcome σ :=
  match w.readDir s tagsFolder with
  | .error err => ⟨some ("error reading tags folder " ++ tagsFolder ++ ": " ++ err), [], s⟩
  | .ok files =>
    let st := assemble w s tagsFolder componentsFile files
    match saveYAMLFile w s outputFile st.1 with
    | (some err, s') => ⟨some ("error saving bundled file: " ++ err), st.2, s'⟩
    | (none, s') =>
      ⟨none, st.2 ++ ["Successfully bundled OpenAPI spec to " ++ outputFile ++ "\n"], s'⟩

/-- What a run of the program leaves behind. -/
structure Run (σ : Type) where
  /-- the exit code of the process -/
  code : Nat
  /-- the lines printed on standard output -/
  stdout : List String
  /-- the filesystem afterwards -/
  state : σ

/-- The function `main`, on the command line `args` (`os.Args[1:]`).  The flag
set is `flag.CommandLine`, whose error handling is `flag.ExitOnError`: a
rejected command line ends the process with code 2, a request for help with
code 0, both before anything else is done. -/
def main (w : World σ V) (s : σ) (args : List String) : Run σ :=
  match flagParse args "collabsvc_bundled.yaml" with
  | .failed _ => ⟨2, [], s⟩
  | .help => ⟨0, [], s⟩
  | .parsed outputFileArg =>
    match w.getwd s with
    | .error err => ⟨1, ["Error getting current working directory: " ++ err ++ "\n"], s⟩
    | .ok baseDir =>
      let tagsFolder := w.join [baseDir, "tags"]
      let componentsFile := w.join [baseDir, "components", "components.yaml"]
      let outputFile := w.join [baseDir, outputFileArg]
      let r := bundleOpenAPIFiles w s tagsFolder componentsFile outputFile
      match r.err with
      | some err => ⟨1, r.stdout ++ ["Bundling failed: " ++ err ++ "\n"], r.state⟩
      | none => ⟨0, r.stdout, r.state⟩

/-! ## Vocabulary of the statements -/

/-- The test of the loop: a non-directory entry whose extension is `.yaml`. -/
def isFragment (e : DirEntry) : Bool :=
  !e.isDir && Ext e.name == ".yaml"

/-- The call of `loadYAMLFile` the loop makes for the entry `e`. -/
def loadFragment (w : World σ V) (s : σ) (tagsFolder : String) (e : DirEntry) :
    Except String (GoMap V) :=
  loadYAMLFile w s w.unmarshalMap (w.join [tagsFolder, e.name])

/-- The fragment of `e` when `e` is loaded successfully. -/
def parsedFragment (w : World σ V) (s : σ) (tagsFolder : String) (e : DirEntry) :
    Option (GoMap V) :=
  if isFragment e then
    match loadFragment w s tagsFolder e with
    | .ok m => some m
    | .error _ => none
  else none

/-- The warning for `e` when `e` is a fragment that cannot be read or parsed. -/
def fragmentWarning (w : World σ V) (s : σ) (tagsFolder : String) (e : DirEntry) :
    Option String :=
  if isFragment e then
    match loadFragment w s tagsFolder e with
    | .ok _ => none
    | .error err => some ("Warning: " ++ err ++ "\n")
  else none

/-- The successfully parsed fragments of a listing, in the order of the listing. -/
def parsedFragments (w : World σ V) (s : σ) (tagsFolder : String) (files : List DirEntry) :
    List (GoMap V) :=
  files.filterMap (parsedFragment w s tagsFolder)

/-- The entry `e` is loaded without error. -/
def loads (w : World σ V) (s : σ) (tagsFolder : String) (e : DirEntry) : Bool :=
  match loadFragment w s tagsFolder e with
  | .ok _ => true
  | .error _ => false

/-- The entry `e` is a non-directory with extension `.yaml` whose file
`os.ReadFile` cannot read or whose content `yaml.Unmarshal` cannot parse. -/
def unreadableOrMalformed (w : World σ V) (s : σ) (tagsFolder : String) (e : DirEntry) :
    Bool :=
  (!e.isDir && Ext e.name == ".yaml") &&
    match w.readFile s (w.join [tagsFolder, e.name]) with
    | .error _ => true
    | .ok data =>
      match w.unmarshalMap data with
      | .error _ => true
      | .ok _ => false

/-- The line printed for an entry whose file cannot be read or parsed: the path
of the file and the cause given by `os.ReadFile` or by `yaml.Unmarshal`. -/
def skipWarning (w : World σ V) (s : σ) (tagsFolder : String) (e : DirEntry) : String :=
  match w.readFile s (w.join [tagsFolder, e.name]) with
  | .error cause =>
    "Warning: " ++ ("error reading file " ++ w.join [tagsFolder, e.name] ++ ": " ++ cause) ++ "\n"
  | .ok data =>
    match w.unmarshalMap data with
    | .error cause =>
      "Warning: " ++ ("error unmarshaling YAML from " ++ w.join [tagsFolder, e.name] ++ ": " ++
        cause) ++ "\n"
    | .ok _ => ""

/-- No key of the first map is a key of the second. -/
def KeysDisjoint (a b : GoMap V) : Prop := ∀ k ∈ a.keys, k ∉ b.keys

instance (a b : GoMap V) : Decidable (KeysDisjoint a b) :=
  inferInstanceAs (Decidable (∀ k ∈ a.keys, k ∉ b.keys))

/-- A string occurs in another one. -/
def Contains (msg part : String) : Prop := part.data <:+: msg.data

instance (msg part : String) : Decidable (Contains msg part) :=
  inferInstanceAs (Decidable (part.data <:+: msg.data))

end Program

/-! ## A small concrete world

Used to evaluate the program on explicit inputs. -/

section Demo

/-- A filesystem: the content of each file, by path. -/
abbrev DemoFS := List (String × String)

def demoSessions : GoMap Nat :=
  AList.insert "/sessions" 1 (AList.insert "/branches" 2 ∅)

def demoBranches : GoMap Nat :=
  AList.insert "/branches" 3 (AList.insert "/chapters" 5 ∅)

def demoComments : GoMap Nat :=
  AList.insert "/comments" 4 ∅

def demoSchemas : GoMap Nat :=
  AList.insert "schemas" 7 ∅

def demoFS : DemoFS :=
  [ ("/srv/tags/sessions.yaml", "/sessions: 1\n/branches: 2\n"),
    ("/srv/tags/branches.yaml", "/branches: 3\n/chapters: 5\n"),
    ("/srv/tags/comments.yaml", "/comments: 4\n"),
    ("/srv/tags/broken.yaml", "/broken: [\n"),
    ("/srv/tags/notes.yml", "/notes: 9\n"),
    ("/srv/components/components.yaml", "components:\n  schemas: 7\n"),
    ("/srv/old.yaml", "previous output\n") ]

/-- A world with a working directory `/srv`, a tags directory, a parser that
knows the files of `demoFS`, and a destination `/srv/locked.yaml` that cannot
be written. -/
def demoWorld : World DemoFS Nat where
  getwd := fun _ => .ok "/srv"
  readDir := fun _ p =>
    if p = "/srv/tags" then
      .ok [⟨"archive.yaml", true⟩, ⟨"branches.yaml", false⟩, ⟨"broken.yaml", false⟩,
        ⟨"comments.yaml", false⟩, ⟨"notes.yml", false⟩, ⟨"sessions.yaml", false⟩]
    else .error ("open " ++ p ++ ": no such file or directory")
  readFile := fun s p =>
    match s.lookup p with
    | some c => .ok c
    | none => .error ("open " ++ p ++ ": no such file or directory")
  writeFile := fun s p data _ =>
    if p = "/srv/locked.yaml" then (some ("open " ++ p ++ ": permission denied"), s)
    else (none, (p, data) :: s.filter (fun x => x.1 ≠ p))
  join := fun parts => "/".intercalate parts
  unmarshalMap := fun data =>
    if data = "/sessions: 1\n/branches: 2\n" then .ok demoSessions
    else if data = "/branches: 3\n/chapters: 5\n" then .ok demoBranches
    else if data = "/comments: 4\n" then .ok demoComments
    else .error "yaml: did not find expected node content"
  unmarshalComponents := fun data =>
    if data = "components:\n  schemas: 7\n" then .ok ⟨demoSchemas⟩
    else if data = "components: \x7b\x7d\n" then .ok ⟨∅⟩
    else .error "yaml: did not find expected node content"
  marshal := fun d => .ok ("openapi: " ++ d.OpenAPI ++ "\n")

/-- The world `demoWorld` with a serializer that rejects every document. -/
def demoWorldNoMarshal : World DemoFS Nat :=
  { demoWorld with marshal := fun _ => .error "yaml: cannot marshal invalid UTF-8 data as !!str" }

/-- The filesystem `demoFS` with a components file whose mapping is empty. -/
def demoEmptyComponentsFS : DemoFS :=
  [ ("/srv/tags/sessions.yaml", "/sessions: 1\n/branches: 2\n"),
    ("/srv/tags/branches.yaml", "/branches: 3\n/chapters: 5\n"),
    ("/srv/tags/comments.yaml", "/comments: 4\n"),
    ("/srv/tags/broken.yaml", "/broken: [\n"),
    ("/srv/tags/notes.yml", "/notes: 9\n"),
    ("/srv/components/components.yaml", "components: \x7b\x7d\n") ]

/-- The listing of `/srv/tags` in `demoWorld`. -/
def demoListing : List DirEntry :=
  [⟨"archive.yaml", true⟩, ⟨"branches.yaml", false⟩, ⟨"broken.yaml", false⟩,
    ⟨"comments.yaml", false⟩, ⟨"notes.yml", false⟩, ⟨"sessions.yaml", false⟩]

/-- A listing with a malformed file, `broken.yaml`, and a file that is not in
`demoFS` and so cannot be read, `ghost.yaml`. -/
def demoGhostListing : List DirEntry :=
  [⟨"broken.yaml", false⟩, ⟨"comments.yaml", false⟩, ⟨"ghost.yaml", false⟩]

/-- A listing whose fragments all parse and share no key. -/
def demoDisjointListing : List DirEntry :=
  [⟨"archive.yaml", true⟩, ⟨"comments.yaml", false⟩, ⟨"notes.yml", false⟩,
    ⟨"sessions.yaml", false⟩]

end Demo

/-! ## Lemmas on the merge -/

section Lemmas

variable {σ V : Type}

theorem lookup_foldl_insert (k : String) (l : List (Sigma fun _ : String => V))
    (hl : l.NodupKeys) (p : GoMap V) :
    (l.foldl (fun (d : GoMap V) x => d.insert x.1 x.2) p).lookup k =
      (l.dlookup k).orElse (fun _ => p.lookup k) := by
  induction l generalizing p with
  | nil => simp
  | cons x l ih =>
    obtain ⟨a, b⟩ := x
    rw [List.nodupKeys_cons] at hl
    rw [List.foldl_cons, ih hl.2]
    by_cases h : k = a
    · subst h
      have hnone : l.dlookup k = none := List.dlookup_eq_none.2 hl.1
      simp [hnone, AList.lookup_insert]
    · rw [List.dlookup_cons_ne l ⟨a, b⟩ h, AList.lookup_insert_ne h]

theorem lookup_rangeAssign (k : String) (paths tagData : GoMap V) :
    (rangeAssign paths tagData).lookup k =
      (tagData.lookup k).orElse (fun _ => paths.lookup k) := by
  unfold rangeAssign AList.foldl
  exact lookup_foldl_insert k tagData.entries tagData.nodupKeys paths

theorem lookup_rangeAssign_of_mem {k : String} {paths tagData : GoMap V} (h : k ∈ tagData) :
    (rangeAssign paths tagData).lookup k = tagData.lookup k := by
  rw [lookup_rangeAssign]
  obtain ⟨v, hv⟩ := Option.isSome_iff_exists.1 (AList.lookup_isSome.2 h)
  simp [hv]

theorem lookup_rangeAssign_of_not_mem {k : String} {paths tagData : GoMap V}
    (h : k ∉ tagData) : (rangeAssign paths tagData).lookup k = paths.lookup k := by
  rw [lookup_rangeAssign, AList.lookup_eq_none.2 h]
  rfl

theorem mem_rangeAssign {k : String} {paths tagData : GoMap V} :
    k ∈ rangeAssign paths tagData ↔ k ∈ tagData ∨ k ∈ paths := by
  by_cases h : k ∈ tagData
  · simp only [h, true_or, iff_true]
    rw [← AList.lookup_isSome, lookup_rangeAssign_of_mem h, AList.lookup_isSome]
    exact h
  · simp only [h, false_or]
    rw [← AList.lookup_isSome, lookup_rangeAssign_of_not_mem h, AList.lookup_isSome]

theorem fragmentStep_eq (w : World σ V) (s : σ) (tagsFolder : String)
    (st : OpenAPISpec V × List String) (e : DirEntry) :
    fragmentStep w s tagsFolder st e =
      ({ st.1 with
          Paths := ((parsedFragment w s tagsFolder e).toList).foldl rangeAssign st.1.Paths },
        st.2 ++ (fragmentWarning w s tagsFolder e).toList) := by
  unfold fragmentStep parsedFragment fragmentWarning isFragment loadFragment
  by_cases hf : (!e.isDir && Ext e.name == ".yaml") = true
  · simp only [hf, if_true]
    cases hl : loadYAMLFile w s w.unmarshalMap (w.join [tagsFolder, e.name]) with
    | error err => simp
    | ok m => simp
  · simp [hf]

theorem mergeFragments_eq (w : World σ V) (s : σ) (tagsFolder : String)
    (files : List DirEntry) (st : OpenAPISpec V × List String) :
    mergeFragments w s tagsFolder files st =
      ({ st.1 with
          Paths := (parsedFragments w s tagsFolder files).foldl rangeAssign st.1.Paths },
        st.2 ++ files.filterMap (fragmentWarning w s tagsFolder)) := by
  unfold mergeFragments parsedFragments
  induction files generalizing st with
  | nil => simp
  | cons e files ih =>
    rw [List.foldl_cons, ih, fragmentStep_eq]
    cases hp : parsedFragment w s tagsFolder e <;>
      cases hw : fragmentWarning w s tagsFolder e <;>
        simp [List.filterMap_cons, hp, hw]

theorem loadComponents_paths (w : World σ V) (s : σ) (componentsFile : String)
    (st : OpenAPISpec V × List String) :
    (loadComponents w s componentsFile st).1.Paths = st.1.Paths := by
  unfold loadComponents
  cases loadYAMLFile w s w.unmarshalComponents componentsFile with
  | error err => rfl
  | ok cw =>
    by_cases h : cw.Components.entries.length > 0
    · simp [h]
    · simp [h]

/-- The `paths` map of the assembled document is the fold of the loop over the
successfully parsed fragments. -/
theorem assemble_paths (w : World σ V) (s : σ) (tagsFolder componentsFile : String)
    (files : List DirEntry) :
    (assemble w s tagsFolder componentsFile files).1.Paths =
      (parsedFragments w s tagsFolder files).foldl rangeAssign ∅ := by
  unfold assemble
  rw [loadComponents_paths, mergeFragments_eq]
  rfl

theorem lookup_foldl_rangeAssign_of_not_mem (k : String) (fs : List (GoMap V)) (p : GoMap V)
    (h : ∀ m ∈ fs, k ∉ m) : (fs.foldl rangeAssign p).lookup k = p.lookup k := by
  induction fs generalizing p with
  | nil => rfl
  | cons m fs ih =>
    rw [List.foldl_cons, ih _ (fun m' hm' => h m' (List.mem_cons_of_mem _ hm')),
      lookup_rangeAssign_of_not_mem (h m (List.mem_cons_self _ _))]

theorem mem_foldl_rangeAssign (k : String) (fs : List (GoMap V)) (p : GoMap V) :
    k ∈ fs.foldl rangeAssign p ↔ (∃ m ∈ fs, k ∈ m) ∨ k ∈ p := by
  induction fs generalizing p with
  | nil => simp
  | cons m fs ih =>
    rw [List.foldl_cons, ih, mem_rangeAssign]
    simp only [List.mem_cons, exists_eq_or_imp]
    generalize (∃ a, a ∈ fs ∧ k ∈ a) = Q
    tauto

theorem mem_parsedFragments {w : World σ V} {s : σ} {tagsFolder : String}
    {files : List DirEntry} {m : GoMap V} :
    m ∈ parsedFragments w s tagsFolder files ↔
      ∃ e ∈ files, isFragment e = true ∧ loadFragment w s tagsFolder e = .ok m := by
  unfold parsedFragments
  rw [List.mem_filterMap]
  constructor
  · rintro ⟨e, he, hp⟩
    refine ⟨e, he, ?_⟩
    unfold parsedFragment at hp
    by_cases hf : isFragment e = true
    · rw [if_pos hf] at hp
      cases hl : loadFragment w s tagsFolder e with
      | error err => rw [hl] at hp; cases hp
      | ok m' => rw [hl] at hp; cases hp; exact ⟨hf, rfl⟩
    · rw [if_neg hf] at hp; cases hp
  · rintro ⟨e, he, hf, hl⟩
    refine ⟨e, he, ?_⟩
    unfold parsedFragment
    rw [if_pos hf, hl]

theorem keysDisjoint_symm : Symmetric (KeysDisjoint : GoMap V → GoMap V → Prop) := by
  intro a b h k hk hk'
  exact h k hk' hk

theorem lookup_foldl_rangeAssign_disjoint (fs : List (GoMap V))
    (hd : fs.Pairwise KeysDisjoint) (k : String) (v : V) :
    (fs.foldl rangeAssign ∅).lookup k = some v ↔ ∃ m ∈ fs, m.lookup k = some v := by
  induction fs using List.reverseRecOn with
  | nil => simp
  | append_singleton l a ih =>
    rw [List.pairwise_append] at hd
    obtain ⟨hl, -, hla⟩ := hd
    rw [List.foldl_append, List.foldl_cons, List.foldl_nil]
    by_cases ha : k ∈ a
    · rw [lookup_rangeAssign_of_mem ha]
      constructor
      · intro h
        exact ⟨a, by simp, h⟩
      · rintro ⟨m, hm, hmk⟩
        rcases List.mem_append.1 hm with hml | hma
        · have hkm : k ∈ m := AList.lookup_isSome.1 (by rw [hmk]; rfl)
          exact absurd ha (hla m hml a (by simp) k hkm)
        · rw [List.mem_singleton] at hma
          rw [← hma]; exact hmk
    · rw [lookup_rangeAssign_of_not_mem ha, ih hl]
      constructor
      · rintro ⟨m, hm, hmk⟩
        exact ⟨m, List.mem_append_left _ hm, hmk⟩
      · rintro ⟨m, hm, hmk⟩
        rcases List.mem_append.1 hm with hml | hma
        · exact ⟨m, hml, hmk⟩
        · rw [List.mem_singleton] at hma
          rw [hma, AList.lookup_eq_none.2 ha] at hmk
          cases hmk

theorem parsedFragments_perm (w : World σ V) (s : σ) (tagsFolder : String)
    {files files' : List DirEntry} (h : files'.Perm files) :
    (parsedFragments w s tagsFolder files').Perm (parsedFragments w s tagsFolder files) :=
  h.filterMap _

theorem parsedFragments_append (w : World σ V) (s : σ) (tagsFolder : String)
    (xs ys : List DirEntry) :
    parsedFragments w s tagsFolder (xs ++ ys) =
      parsedFragments w s tagsFolder xs ++ parsedFragments w s tagsFolder ys := by
  unfold parsedFragments
  rw [List.filterMap_append]

theorem parsedFragments_cons_of_ok {w : World σ V} {s : σ} {tagsFolder : String}
    {e : DirEntry} {m : GoMap V} (hf : isFragment e = true)
    (hl : loadFragment w s tagsFolder e = .ok m) (post : List DirEntry) :
    parsedFragments w s tagsFolder (e :: post) = m :: parsedFragments w s tagsFolder post := by
  unfold parsedFragments
  have hp : parsedFragment w s tagsFolder e = some m := by
    unfold parsedFragment
    rw [if_pos hf, hl]
  rw [List.filterMap_cons, hp]

/-- The value of a key is the one of the last parsed fragment that has the key. -/
theorem lookup_paths_of_last {w : World σ V} {s : σ} {tagsFolder : String}
    (componentsFile : String) {k : String} {pre post : List DirEntry} {e : DirEntry}
    {m : GoMap V} (hf : isFragment e = true) (hl : loadFragment w s tagsFolder e = .ok m)
    (hk : k ∈ m)
    (hlast : ∀ e' ∈ post, isFragment e' = true →
      ∀ m', loadFragment w s tagsFolder e' = .ok m' → k ∉ m') :
    (assemble w s tagsFolder componentsFile (pre ++ e :: post)).1.Paths.lookup k =
      m.lookup k := by
  rw [assemble_paths, parsedFragments_append, parsedFragments_cons_of_ok hf hl,
    List.foldl_append, List.foldl_cons, lookup_foldl_rangeAssign_of_not_mem,
    lookup_rangeAssign_of_mem hk]
  intro m' hm'
  obtain ⟨e', he', hf', hl'⟩ := mem_parsedFragments.1 hm'
  exact hlast e' he' hf' m' hl'

/-- A listing in which some parsed fragment has the key `k` splits at the last
such fragment. -/
theorem exists_last_fragment (w : World σ V) (s : σ) (tagsFolder : String) (k : String)
    (files : List DirEntry)
    (hocc : ∃ e ∈ files, isFragment e = true ∧
      ∃ m, loadFragment w s tagsFolder e = .ok m ∧ k ∈ m) :
    ∃ pre e post m, files = pre ++ e :: post ∧ isFragment e = true ∧
      loadFragment w s tagsFolder e = .ok m ∧ k ∈ m ∧
      ∀ e' ∈ post, isFragment e' = true →
        ∀ m', loadFragment w s tagsFolder e' = .ok m' → k ∉ m' := by
  induction files using List.reverseRecOn with
  | nil =>
    obtain ⟨e, he, -⟩ := hocc
    cases he
  | append_singleton l a ih =>
    by_cases ha : isFragment a = true ∧ ∃ m, loadFragment w s tagsFolder a = .ok m ∧ k ∈ m
    · obtain ⟨hf, m, hl, hk⟩ := ha
      exact ⟨l, a, [], m, rfl, hf, hl, hk, fun e' he' => by cases he'⟩
    · obtain ⟨e, he, hf, m, hl, hk⟩ := hocc
      have hel : e ∈ l := by
        rcases List.mem_append.1 he with h | h
        · exact h
        · rw [List.mem_singleton] at h
          subst h
          exact absurd ⟨hf, m, hl, hk⟩ ha
      obtain ⟨pre, e₀, post, m₀, hsplit, hf₀, hl₀, hk₀, hlast⟩ := ih ⟨e, hel, hf, m, hl, hk⟩
      refine ⟨pre, e₀, post ++ [a], m₀, ?_, hf₀, hl₀, hk₀, ?_⟩
      · rw [hsplit]; simp
      · intro e' he' hf' m' hl' hk'
        rcases List.mem_append.1 he' with h | h
        · exact hlast e' h hf' m' hl' hk'
        · rw [List.mem_singleton] at h
          subst h
          exact ha ⟨hf', m', hl', hk'⟩

theorem filterMap_filter_of_none {α β : Type} (p : α → Bool) (f : α → Option β)
    (h : ∀ a, p a = false → f a = none) (l : List α) :
    (l.filter p).filterMap f = l.filterMap f := by
  induction l with
  | nil => rfl
  | cons a l ih =>
    cases hp : p a
    · rw [List.filter_cons_of_neg (by simp [hp]), List.filterMap_cons, h a hp, ih]
    · rw [List.filter_cons_of_pos hp, List.filterMap_cons, List.filterMap_cons, ih]

theorem filterMap_eq_nil_of_none {α β : Type} (f : α → Option β) (l : List α)
    (h : ∀ a ∈ l, f a = none) : l.filterMap f = [] := by
  induction l with
  | nil => rfl
  | cons a l ih =>
    rw [List.filterMap_cons, h a (List.mem_cons_self _ _),
      ih (fun b hb => h b (List.mem_cons_of_mem _ hb))]

theorem filterMap_eq_map_filter {α β : Type} (p : α → Bool) (g : α → β) (f : α → Option β)
    (hpos : ∀ a, p a = true → f a = some (g a)) (hneg : ∀ a, p a = false → f a = none)
    (l : List α) : l.filterMap f = (l.filter p).map g := by
  induction l with
  | nil => rfl
  | cons a l ih =>
    cases hp : p a
    · rw [List.filter_cons_of_neg (by simp [hp]), List.filterMap_cons, hneg a hp, ih]
    · rw [List.filter_cons_of_pos hp, List.filterMap_cons, hpos a hp, List.map_cons, ih]

theorem parsedFragment_of_not_isFragment (w : World σ V) (s : σ) (tagsFolder : String)
    (e : DirEntry) (h : isFragment e = false) : parsedFragment w s tagsFolder e = none := by
  unfold parsedFragment
  simp [h]

theorem fragmentWarning_of_not_isFragment (w : World σ V) (s : σ) (tagsFolder : String)
    (e : DirEntry) (h : isFragment e = false) : fragmentWarning w s tagsFolder e = none := by
  unfold fragmentWarning
  simp [h]

theorem parsedFragment_of_unreadableOrMalformed (w : World σ V) (s : σ)
    (tagsFolder : String) (e : DirEntry) (h : unreadableOrMalformed w s tagsFolder e = true) :
    parsedFragment w s tagsFolder e = none := by
  unfold unreadableOrMalformed at h
  unfold parsedFragment loadFragment loadYAMLFile isFragment
  cases hr : w.readFile s (w.join [tagsFolder, e.name]) with
  | error cause => simp
  | ok data =>
    cases hu : w.unmarshalMap data with
    | error cause => simp [hu]
    | ok m => simp [hr, hu] at h

theorem fragmentWarning_of_unreadableOrMalformed (w : World σ V) (s : σ)
    (tagsFolder : String) (e : DirEntry) (h : unreadableOrMalformed w s tagsFolder e = true) :
    fragmentWarning w s tagsFolder e = some (skipWarning w s tagsFolder e) := by
  unfold unreadableOrMalformed at h
  unfold fragmentWarning skipWarning loadFragment loadYAMLFile isFragment
  cases hr : w.readFile s (w.join [tagsFolder, e.name]) with
  | error cause =>
    rw [hr] at h
    simp only [Bool.and_true] at h
    simp [h]
  | ok data =>
    cases hu : w.unmarshalMap data with
    | error cause =>
      rw [hr] at h
      simp only [hu, Bool.and_true] at h
      simp [h, hu]
    | ok m => simp [hr, hu] at h

theorem fragmentWarning_of_not_unreadableOrMalformed (w : World σ V) (s : σ)
    (tagsFolder : String) (e : DirEntry) (h : unreadableOrMalformed w s tagsFolder e = false) :
    fragmentWarning w s tagsFolder e = none := by
  unfold unreadableOrMalformed at h
  unfold fragmentWarning loadFragment loadYAMLFile isFragment
  cases hr : w.readFile s (w.join [tagsFolder, e.name]) with
  | error cause =>
    rw [hr] at h
    simp only [Bool.and_true] at h
    simp [h]
  | ok data =>
    cases hu : w.unmarshalMap data with
    | error cause =>
      rw [hr] at h
      simp only [hu, Bool.and_true] at h
      simp [h]
    | ok m => simp [hu]

/-- The lines printed by the components step follow the lines printed before,
and the document it yields does not depend on them. -/
theorem loadComponents_eq (w : World σ V) (s : σ) (componentsFile : String)
    (doc : OpenAPISpec V) (out : List String) :
    loadComponents w s componentsFile (doc, out) =
      ((loadComponents w s componentsFile (doc, [])).1,
        out ++ (loadComponents w s componentsFile (doc, [])).2) := by
  unfold loadComponents
  cases loadYAMLFile w s w.unmarshalComponents componentsFile with
  | error err => simp
  | ok cw =>
    by_cases h : cw.Components.entries.length > 0
    · simp [h]
    · simp [h]

/-- The assembled document and the printed lines, from the parsed fragments and
the warnings of the listing. -/
theorem assemble_eq (w : World σ V) (s : σ) (tagsFolder componentsFile : String)
    (files : List DirEntry) :
    assemble w s tagsFolder componentsFile files =
      ((loadComponents w s componentsFile
          ({ (initialSpec : OpenAPISpec V) with
              Paths := (parsedFragments w s tagsFolder files).foldl rangeAssign ∅ }, [])).1,
        files.filterMap (fragmentWarning w s tagsFolder) ++
          (loadComponents w s componentsFile
            ({ (initialSpec : OpenAPISpec V) with
                Paths := (parsedFragments w s tagsFolder files).foldl rangeAssign ∅ }, [])).2) := by
  unfold assemble
  rw [mergeFragments_eq, loadComponents_eq]
  rfl

theorem bundle_of_readDir_error {w : World σ V} {s : σ} {tagsFolder : String}
    (componentsFile outputFile : String) {cause : String}
    (hdir : w.readDir s tagsFolder = .error cause) :
    bundleOpenAPIFiles w s tagsFolder componentsFile outputFile =
      ⟨some ("error reading tags folder " ++ tagsFolder ++ ": " ++ cause), [], s⟩ := by
  unfold bundleOpenAPIFiles
  rw [hdir]

theorem bundle_of_marshal_error {w : World σ V} {s : σ} {tagsFolder componentsFile : String}
    (outputFile : String) {files : List DirEntry} {cause : String}
    (hdir : w.readDir s tagsFolder = .ok files)
    (hm : w.marshal (assemble w s tagsFolder componentsFile files).1 = .error cause) :
    bundleOpenAPIFiles w s tagsFolder componentsFile outputFile =
      ⟨some ("error saving bundled file: " ++ ("error marshaling data to YAML: " ++ cause)),
        (assemble w s tagsFolder componentsFile files).2, s⟩ := by
  unfold bundleOpenAPIFiles saveYAMLFile
  simp only [hdir, hm]

theorem bundle_of_write_error {w : World σ V} {s s' : σ}
    {tagsFolder componentsFile outputFile : String} {files : List DirEntry}
    {bytes cause : String} (hdir : w.readDir s tagsFolder = .ok files)
    (hm : w.marshal (assemble w s tagsFolder componentsFile files).1 = .ok bytes)
    (hw : w.writeFile s outputFile bytes 0o644 = (some cause, s')) :
    bundleOpenAPIFiles w s tagsFolder componentsFile outputFile =
      ⟨some ("error saving bundled file: " ++
          ("error writing file " ++ outputFile ++ ": " ++ cause)),
        (assemble w s tagsFolder componentsFile files).2, s'⟩ := by
  unfold bundleOpenAPIFiles saveYAMLFile
  simp only [hdir, hm, hw]

theorem bundle_of_write_ok {w : World σ V} {s s' : σ}
    {tagsFolder componentsFile outputFile : String} {files : List DirEntry}
    {bytes : String} (hdir : w.readDir s tagsFolder = .ok files)
    (hm : w.marshal (assemble w s tagsFolder componentsFile files).1 = .ok bytes)
    (hw : w.writeFile s outputFile bytes 0o644 = (none, s')) :
    bundleOpenAPIFiles w s tagsFolder componentsFile outputFile =
      ⟨none, (assemble w s tagsFolder componentsFile files).2 ++
          ["Successfully bundled OpenAPI spec to " ++ outputFile ++ "\n"], s'⟩ := by
  unfold bundleOpenAPIFiles saveYAMLFile
  simp only [hdir, hm, hw]

/-- A successful call has listed the directory, serialized the assembled
document and written the bytes. -/
theorem bundle_ok_inv {w : World σ V} {s : σ} {tagsFolder componentsFile outputFile : String}
    (hok : (bundleOpenAPIFiles w s tagsFolder componentsFile outputFile).err = none) :
    ∃ files bytes, w.readDir s tagsFolder = .ok files ∧
      w.marshal (assemble w s tagsFolder componentsFile files).1 = .ok bytes ∧
      (w.writeFile s outputFile bytes 0o644).1 = none := by
  cases hdir : w.readDir s tagsFolder with
  | error cause =>
    rw [bundle_of_readDir_error componentsFile outputFile hdir] at hok
    cases hok
  | ok files =>
    cases hm : w.marshal (assemble w s tagsFolder componentsFile files).1 with
    | error cause =>
      rw [bundle_of_marshal_error outputFile hdir hm] at hok
      cases hok
    | ok bytes =>
      rcases hw : w.writeFile s outputFile bytes 0o644 with ⟨_ | cause, s'⟩
      · exact ⟨files, bytes, rfl, hm, by rw [hw]⟩
      · rw [bundle_of_write_error hdir hm hw] at hok
        cases hok

theorem contains_mid (a part b : String) : Contains (a ++ part ++ b) part :=
  ⟨a.data, b.data, by simp [String.data_append]⟩

theorem contains_end (a part : String) : Contains (a ++ part) part :=
  ⟨a.data, [], by simp [String.data_append]⟩

theorem contains_append_right {msg part : String} (a : String) (h : Contains msg part) :
    Contains (a ++ msg) part := by
  obtain ⟨x, y, hxy⟩ := h
  exact ⟨a.data ++ x, y, by simp [String.data_append, ← hxy]⟩

/-- The header of the assembled document is the initial one. -/
theorem assemble_header (w : World σ V) (s : σ) (tagsFolder componentsFile : String)
    (files : List DirEntry) :
    (assemble w s tagsFolder componentsFile files).1 =
      { (initialSpec : OpenAPISpec V) with
        Paths := (assemble w s tagsFolder componentsFile files).1.Paths
        Components := (assemble w s tagsFolder componentsFile files).1.Components } := by
  rw [assemble_eq]
  unfold loadComponents
  cases loadYAMLFile w s w.unmarshalComponents componentsFile with
  | error err => rfl
  | ok cw =>
    by_cases h : cw.Components.entries.length > 0
    · simp [h]
    · simp [h]

end Lemmas

/-! ## The claims -/

section Claims

set_option maxRecDepth 20000

variable {σ V : Type}

/-- C1. When every fragment of the listing parses and no two parsed fragments
share a key, the `paths` map of the assembled document is the union of the
fragments: every fragment of the listing is loaded and each of its key/value
pairs is in `paths`, every pair of `paths` is a pair of some fragment, and every
permutation of the listing yields the same `paths` map. -/
theorem C1_paths_union_of_disjoint (w : World σ V) (s : σ) (tagsFolder componentsFile : String)
    (files : List DirEntry)
    (hparse : ∀ e ∈ files, isFragment e = true → loads w s tagsFolder e = true)
    (hdisj : (parsedFragments w s tagsFolder files).Pairwise KeysDisjoint) :
    (∀ e ∈ files, isFragment e = true →
        ∃ m, loadFragment w s tagsFolder e = .ok m ∧ ∀ k v, m.lookup k = some v →
          (assemble w s tagsFolder componentsFile files).1.Paths.lookup k = some v) ∧
    (∀ k v, (assemble w s tagsFolder componentsFile files).1.Paths.lookup k = some v →
        ∃ e ∈ files, isFragment e = true ∧
          ∃ m, loadFragment w s tagsFolder e = .ok m ∧ m.lookup k = some v) ∧
    ∀ files' : List DirEntry, files'.Perm files → ∀ k,
      (assemble w s tagsFolder componentsFile files').1.Paths.lookup k =
        (assemble w s tagsFolder componentsFile files).1.Paths.lookup k := by
  have key : ∀ fl : List DirEntry, fl.Perm files → ∀ k v,
      (assemble w s tagsFolder componentsFile fl).1.Paths.lookup k = some v ↔
        ∃ m ∈ parsedFragments w s tagsFolder files, m.lookup k = some v := by
    intro fl hfl k v
    have hp := parsedFragments_perm w s tagsFolder hfl
    rw [assemble_paths,
      lookup_foldl_rangeAssign_disjoint _
        ((hp.pairwise_iff (fun {a b} h => keysDisjoint_symm h)).2 hdisj)]
    constructor
    · rintro ⟨m, hm, hmk⟩
      exact ⟨m, hp.mem_iff.1 hm, hmk⟩
    · rintro ⟨m, hm, hmk⟩
      exact ⟨m, hp.mem_iff.2 hm, hmk⟩
  refine ⟨fun e he hf => ?_, fun k v hkv => ?_, fun files' hperm k => ?_⟩
  · have hl := hparse e he hf
    unfold loads at hl
    cases hm : loadFragment w s tagsFolder e with
    | error err => rw [hm] at hl; cases hl
    | ok m =>
      refine ⟨m, rfl, fun k v hkv => ?_⟩
      exact (key files (List.Perm.refl _) k v).2
        ⟨m, mem_parsedFragments.2 ⟨e, he, hf, hm⟩, hkv⟩
  · obtain ⟨m, hm, hmk⟩ := (key files (List.Perm.refl _) k v).1 hkv
    obtain ⟨e, he, hf, hl⟩ := mem_parsedFragments.1 hm
    exact ⟨e, he, hf, m, hl, hmk⟩
  · apply Option.ext
    intro v
    rw [Option.mem_def, Option.mem_def, key files' hperm, key files (List.Perm.refl _)]

/-- C1 on `demoDisjointListing`: the hypotheses hold there, `/comments` has a
value in `paths` that a fragment of the listing gives it, and the reversed
listing yields the same value. -/
theorem C1_paths_union_of_disjoint_witness :
    (∀ e ∈ demoDisjointListing, isFragment e = true →
        loads demoWorld demoFS "/srv/tags" e = true) ∧
    (parsedFragments demoWorld demoFS "/srv/tags" demoDisjointListing).Pairwise KeysDisjoint ∧
    (∃ m, loadFragment demoWorld demoFS "/srv/tags" ⟨"comments.yaml", false⟩ = .ok m ∧
      ∀ k v, m.lookup k = some v →
        (assemble demoWorld demoFS "/srv/tags" "/srv/components/components.yaml"
          demoDisjointListing).1.Paths.lookup k = some v) ∧
    (assemble demoWorld demoFS "/srv/tags" "/srv/components/components.yaml"
        demoDisjointListing.reverse).1.Paths.lookup "/comments" =
      (assemble demoWorld demoFS "/srv/tags" "/srv/components/components.yaml"
        demoDisjointListing).1.Paths.lookup "/comments" :=
  have h := C1_paths_union_of_disjoint demoWorld demoFS "/srv/tags"
    "/srv/components/components.yaml" demoDisjointListing (by decide) (by decide)
  ⟨by decide, by decide, h.1 ⟨"comments.yaml", false⟩ (by decide) (by decide),
    h.2.2 demoDisjointListing.reverse (List.reverse_perm _) "/comments"⟩

/-- C2. When the key `k` occurs in a successfully parsed fragment of the listing,
there is a last entry of the listing that is a successfully parsed `.yaml`
non-directory entry with the key `k`, and the value of `k` in the `paths` map of
the assembled document is the value `k` has in that fragment, whatever earlier
fragments say. -/
theorem C2_last_writer_wins (w : World σ V) (s : σ) (tagsFolder componentsFile : String)
    (files : List DirEntry) (k : String)
    (hocc : ∃ e ∈ files, isFragment e = true ∧
      ∃ m, loadFragment w s tagsFolder e = .ok m ∧ k ∈ m) :
    (∃ pre e post m, files = pre ++ e :: post ∧ isFragment e = true ∧
      loadFragment w s tagsFolder e = .ok m ∧ k ∈ m ∧
      ∀ e' ∈ post, isFragment e' = true →
        ∀ m', loadFragment w s tagsFolder e' = .ok m' → k ∉ m') ∧
    ∀ pre e post m, files = pre ++ e :: post → isFragment e = true →
      loadFragment w s tagsFolder e = .ok m → k ∈ m →
      (∀ e' ∈ post, isFragment e' = true →
        ∀ m', loadFragment w s tagsFolder e' = .ok m' → k ∉ m') →
      (assemble w s tagsFolder componentsFile files).1.Paths.lookup k = m.lookup k := by
  refine ⟨exists_last_fragment w s tagsFolder k files hocc, ?_⟩
  intro pre e post m hsplit hf hl hk hlast
  rw [hsplit]
  exact lookup_paths_of_last componentsFile hf hl hk hlast

/-- C2 on `demoListing`: `branches.yaml` and `sessions.yaml` both define
`/branches`; `sessions.yaml` is listed last and its value 2 is the one in
`paths`. -/
theorem C2_last_writer_wins_witness :
    (∃ e ∈ demoListing, isFragment e = true ∧
      ∃ m, loadFragment demoWorld demoFS "/srv/tags" e = .ok m ∧ "/branches" ∈ m) ∧
    (assemble demoWorld demoFS "/srv/tags" "/srv/components/components.yaml"
      demoListing).1.Paths.lookup "/branches" = some 2 :=
  have hocc : ∃ e ∈ demoListing, isFragment e = true ∧
      ∃ m, loadFragment demoWorld demoFS "/srv/tags" e = .ok m ∧ "/branches" ∈ m :=
    ⟨⟨"branches.yaml", false⟩, by decide, by decide, demoBranches, by rfl, by decide⟩
  ⟨hocc,
    (C2_last_writer_wins demoWorld demoFS "/srv/tags" "/srv/components/components.yaml"
      demoListing "/branches" hocc).2
      [⟨"archive.yaml", true⟩, ⟨"branches.yaml", false⟩, ⟨"broken.yaml", false⟩,
        ⟨"comments.yaml", false⟩, ⟨"notes.yml", false⟩]
      ⟨"sessions.yaml", false⟩ [] demoSessions (by rfl) (by decide) (by rfl) (by decide)
      (fun e' he' => by cases he')⟩

/-- C3. A fragment file that `os.ReadFile` cannot read or `yaml.Unmarshal` cannot
parse contributes nothing and does not stop the merge: the `paths` map of the
assembled document is the one of the listing without those entries; the lines
printed are one warning for each of them, in the order of the listing, naming
the path and the cause, followed by the lines printed for the listing without
them, whose loop prints nothing; in particular an unreadable `.yaml` entry has
its `error reading file` warning printed and a malformed one its
`error unmarshaling YAML` warning. -/
theorem C3_failed_fragments_skipped (w : World σ V) (s : σ)
    (tagsFolder componentsFile : String) (files : List DirEntry) :
    (assemble w s tagsFolder componentsFile files).1.Paths =
      (assemble w s tagsFolder componentsFile
        (files.filter fun e => !unreadableOrMalformed w s tagsFolder e)).1.Paths ∧
    (assemble w s tagsFolder componentsFile files).2 =
      (files.filter (unreadableOrMalformed w s tagsFolder)).map (skipWarning w s tagsFolder) ++
        (assemble w s tagsFolder componentsFile
          (files.filter fun e => !unreadableOrMalformed w s tagsFolder e)).2 ∧
    (mergeFragments w s tagsFolder
      (files.filter fun e => !unreadableOrMalformed w s tagsFolder e) (initialSpec, [])).2 = [] ∧
    (∀ e ∈ files, (!e.isDir && Ext e.name == ".yaml") = true →
      ∀ cause, w.readFile s (w.join [tagsFolder, e.name]) = .error cause →
        ("Warning: " ++ ("error reading file " ++ w.join [tagsFolder, e.name] ++ ": " ++ cause) ++
          "\n") ∈ (assemble w s tagsFolder componentsFile files).2) ∧
    (∀ e ∈ files, (!e.isDir && Ext e.name == ".yaml") = true →
      ∀ data cause, w.readFile s (w.join [tagsFolder, e.name]) = .ok data →
        w.unmarshalMap data = .error cause →
        ("Warning: " ++ ("error unmarshaling YAML from " ++ w.join [tagsFolder, e.name] ++ ": " ++
          cause) ++ "\n") ∈ (assemble w s tagsFolder componentsFile files).2) := by
  have hfrag : parsedFragments w s tagsFolder
      (files.filter fun e => !unreadableOrMalformed w s tagsFolder e) =
        parsedFragments w s tagsFolder files := by
    unfold parsedFragments
    apply filterMap_filter_of_none
    intro e he
    apply parsedFragment_of_unreadableOrMalformed
    simpa using he
  have hwarn : (files.filter fun e => !unreadableOrMalformed w s tagsFolder e).filterMap
      (fragmentWarning w s tagsFolder) = [] := by
    apply filterMap_eq_nil_of_none
    intro e he
    apply fragmentWarning_of_not_unreadableOrMalformed
    simpa using (List.mem_filter.1 he).2
  have hmap : files.filterMap (fragmentWarning w s tagsFolder) =
      (files.filter (unreadableOrMalformed w s tagsFolder)).map (skipWarning w s tagsFolder) :=
    filterMap_eq_map_filter _ _ _ (fragmentWarning_of_unreadableOrMalformed w s tagsFolder)
      (fragmentWarning_of_not_unreadableOrMalformed w s tagsFolder) files
  have hout : (assemble w s tagsFolder componentsFile files).2 =
      (files.filter (unreadableOrMalformed w s tagsFolder)).map (skipWarning w s tagsFolder) ++
        (assemble w s tagsFolder componentsFile
          (files.filter fun e => !unreadableOrMalformed w s tagsFolder e)).2 := by
    rw [assemble_eq w s tagsFolder componentsFile files,
      assemble_eq w s tagsFolder componentsFile (files.filter _), hfrag, hwarn, hmap]
    rfl
  refine ⟨?_, hout, ?_, ?_, ?_⟩
  · rw [assemble_paths, assemble_paths, hfrag]
  · rw [mergeFragments_eq, hwarn]
    rfl
  · intro e he hf cause hr
    rw [hout]
    apply List.mem_append_left
    refine List.mem_map.2 ⟨e, List.mem_filter.2 ⟨he, ?_⟩, ?_⟩
    · unfold unreadableOrMalformed
      rw [hf, hr]
      rfl
    · unfold skipWarning
      rw [hr]
  · intro e he hf data cause hr hu
    rw [hout]
    apply List.mem_append_left
    refine List.mem_map.2 ⟨e, List.mem_filter.2 ⟨he, ?_⟩, ?_⟩
    · unfold unreadableOrMalformed
      rw [hf, hr]
      simp only [hu]
      rfl
    · unfold skipWarning
      rw [hr]
      simp only [hu]

/-- C3 on `demoGhostListing`: `ghost.yaml` cannot be read and `broken.yaml`
cannot be parsed; each has its warning printed, nothing else is printed, and
`/comments` of the sibling `comments.yaml` is in `paths`, as for the listing
that has `comments.yaml` alone. -/
theorem C3_failed_fragments_skipped_witness :
    demoWorld.readFile demoFS "/srv/tags/ghost.yaml" =
      .error "open /srv/tags/ghost.yaml: no such file or directory" ∧
    demoWorld.readFile demoFS "/srv/tags/broken.yaml" = .ok "/broken: [\n" ∧
    demoWorld.unmarshalMap "/broken: [\n" = .error "yaml: did not find expected node content" ∧
    (assemble demoWorld demoFS "/srv/tags" "/srv/components/components.yaml"
      demoGhostListing).2 =
      ["Warning: error unmarshaling YAML from /srv/tags/broken.yaml: yaml: did not find expected node content\n",
        "Warning: error reading file /srv/tags/ghost.yaml: open /srv/tags/ghost.yaml: no such file or directory\n"] ∧
    (assemble demoWorld demoFS "/srv/tags" "/srv/components/components.yaml"
      demoGhostListing).1.Paths =
      (assemble demoWorld demoFS "/srv/tags" "/srv/components/components.yaml"
        [⟨"comments.yaml", false⟩]).1.Paths ∧
    (assemble demoWorld demoFS "/srv/tags" "/srv/components/components.yaml"
      [⟨"comments.yaml", false⟩]).1.Paths.lookup "/comments" = some 4 :=
  have h := C3_failed_fragments_skipped demoWorld demoFS "/srv/tags"
    "/srv/components/components.yaml" demoGhostListing
  ⟨rfl, rfl, rfl, h.2.1.trans (by decide), h.1.trans (by rfl), by decide⟩

/-- C9. Only the non-directory entries with extension `.yaml` are loaded:
dropping every other entry from the listing changes neither the assembled
document nor the lines printed, and entries named `.yml`, `.json`, `.YAML` or
without extension, as well as directories, are among the dropped ones. -/
theorem C9_only_yaml_files_loaded (w : World σ V) (s : σ)
    (tagsFolder componentsFile : String) (files : List DirEntry) :
    assemble w s tagsFolder componentsFile
        (files.filter fun e => !e.isDir && Ext e.name == ".yaml") =
      assemble w s tagsFolder componentsFile files ∧
    (!false && Ext "sessions.yml" == ".yaml") = false ∧
    (!false && Ext "sessions.json" == ".yaml") = false ∧
    (!false && Ext "sessions.YAML" == ".yaml") = false ∧
    (!false && Ext "sessions" == ".yaml") = false ∧
    (!true && Ext "sessions.yaml" == ".yaml") = false ∧
    (!false && Ext "sessions.yaml" == ".yaml") = true := by
  refine ⟨?_, by decide, by decide, by decide, by decide, by decide, by decide⟩
  have hfrag : parsedFragments w s tagsFolder (files.filter isFragment) =
      parsedFragments w s tagsFolder files :=
    filterMap_filter_of_none _ _ (parsedFragment_of_not_isFragment w s tagsFolder) files
  have hwarn : (files.filter isFragment).filterMap (fragmentWarning w s tagsFolder) =
      files.filterMap (fragmentWarning w s tagsFolder) :=
    filterMap_filter_of_none _ _ (fragmentWarning_of_not_isFragment w s tagsFolder) files
  change assemble w s tagsFolder componentsFile (files.filter isFragment) = _
  rw [assemble_eq w s tagsFolder componentsFile files,
    assemble_eq w s tagsFolder componentsFile (files.filter isFragment), hfrag, hwarn]

/-- C10. The keys of the `paths` map of the assembled document are exactly the
keys of the successfully parsed `.yaml` non-directory entries of the listing,
with or without collisions, and the `paths` map is the same whatever the
components file is and whatever its content parses to. -/
theorem C10_paths_keys (w : World σ V) (s : σ) (tagsFolder componentsFile : String)
    (files : List DirEntry) :
    (∀ k, k ∈ (assemble w s tagsFolder componentsFile files).1.Paths ↔
      ∃ e ∈ files, isFragment e = true ∧
        ∃ m, loadFragment w s tagsFolder e = .ok m ∧ k ∈ m) ∧
    ∀ (componentsFile' : String) (u : String → Except String (ComponentsWrapper V)),
      (assemble { w with unmarshalComponents := u } s tagsFolder componentsFile' files).1.Paths =
        (assemble w s tagsFolder componentsFile files).1.Paths := by
  refine ⟨fun k => ?_, fun componentsFile' u => ?_⟩
  · rw [assemble_paths, mem_foldl_rangeAssign]
    constructor
    · rintro (⟨m, hm, hk⟩ | h)
      · obtain ⟨e, he, hf, hl⟩ := mem_parsedFragments.1 hm
        exact ⟨e, he, hf, m, hl, hk⟩
      · exact absurd h (AList.not_mem_empty k)
    · rintro ⟨e, he, hf, m, hl, hk⟩
      exact Or.inl ⟨m, mem_parsedFragments.2 ⟨e, he, hf, hl⟩, hk⟩
  · rw [assemble_paths, assemble_paths]
    rfl

/-- C4. When the tags directory cannot be read, `bundleOpenAPIFiles` returns an
error, prints nothing and leaves the filesystem as it was; the outcome is the
same in every world with that failure, whatever its files, parser, serializer
and `os.WriteFile` are, so nothing is loaded or written; and `main`, started in
a working directory whose `tags` folder this is, exits with code 1 on the same
filesystem. -/
theorem C4_unreadable_tags_directory (w : World σ V) (s : σ)
    (tagsFolder componentsFile outputFile cause : String)
    (hdir : w.readDir s tagsFolder = .error cause) :
    (bundleOpenAPIFiles w s tagsFolder componentsFile outputFile).err =
      some ("error reading tags folder " ++ tagsFolder ++ ": " ++ cause) ∧
    (bundleOpenAPIFiles w s tagsFolder componentsFile outputFile).state = s ∧
    (bundleOpenAPIFiles w s tagsFolder componentsFile outputFile).stdout = [] ∧
    (∀ w' : World σ V, w'.readDir s tagsFolder = .error cause →
      ∀ componentsFile' outputFile' : String,
        bundleOpenAPIFiles w' s tagsFolder componentsFile' outputFile' =
          bundleOpenAPIFiles w s tagsFolder componentsFile outputFile) ∧
    ∀ (args : List String) (out base : String),
      flagParse args "collabsvc_bundled.yaml" = .parsed out → w.getwd s = .ok base →
      w.join [base, "tags"] = tagsFolder →
        (main w s args).code = 1 ∧ (main w s args).state = s := by
  have hb := fun c o => bundle_of_readDir_error (w := w) c o hdir
  refine ⟨by rw [hb], by rw [hb], by rw [hb], ?_, ?_⟩
  · intro w' hdir' c' o'
    rw [hb, bundle_of_readDir_error c' o' hdir']
  · intro args out base hflag hwd hjoin
    unfold main
    simp [hflag, hwd, hjoin, hb]

/-- C4 in `demoWorld`: with the tags folder `/srv/missing` the call fails and
the file `/srv/old.yaml`, given as the output path, keeps its content. -/
theorem C4_unreadable_tags_directory_witness :
    demoWorld.readDir demoFS "/srv/missing" =
      .error "open /srv/missing: no such file or directory" ∧
    (bundleOpenAPIFiles demoWorld demoFS "/srv/missing" "/srv/components/components.yaml"
      "/srv/old.yaml").state.lookup "/srv/old.yaml" = some "previous output\n" :=
  ⟨rfl,
    congrArg (fun fs : DemoFS => fs.lookup "/srv/old.yaml")
      (C4_unreadable_tags_directory demoWorld demoFS "/srv/missing"
        "/srv/components/components.yaml" "/srv/old.yaml"
        "open /srv/missing: no such file or directory" rfl).2.1⟩

/-- C5. The `components` map of the assembled document is decided by the
components file alone.  A file that loads with a non-empty mapping gives exactly
that mapping and no further line is printed; a file that loads with an empty or
absent mapping, and a file that cannot be read or parsed, give the empty map and
a warning after the warnings of the fragments.  In each case the call succeeds
as soon as the listing is read, the document serialized and the bytes
written. -/
theorem C5_components_from_file (w : World σ V) (s : σ) (tagsFolder componentsFile : String)
    (files : List DirEntry) :
    (∀ cw, loadYAMLFile w s w.unmarshalComponents componentsFile = .ok cw →
      cw.Components.entries.length > 0 →
        (assemble w s tagsFolder componentsFile files).1.Components = cw.Components ∧
        (assemble w s tagsFolder componentsFile files).2 =
          files.filterMap (fragmentWarning w s tagsFolder)) ∧
    (∀ cw, loadYAMLFile w s w.unmarshalComponents componentsFile = .ok cw →
      ¬ cw.Components.entries.length > 0 →
        (assemble w s tagsFolder componentsFile files).1.Components = ∅ ∧
        (assemble w s tagsFolder componentsFile files).2 =
          files.filterMap (fragmentWarning w s tagsFolder) ++
            ["Warning: 'components' section is empty or not found in " ++
              componentsFile ++ "\n"]) ∧
    (∀ err, loadYAMLFile w s w.unmarshalComponents componentsFile = .error err →
        (assemble w s tagsFolder componentsFile files).1.Components = ∅ ∧
        (assemble w s tagsFolder componentsFile files).2 =
          files.filterMap (fragmentWarning w s tagsFolder) ++
            ["Warning: " ++ err ++ "\n", "No valid components will be included.\n"]) ∧
    ∀ (outputFile bytes : String), w.readDir s tagsFolder = .ok files →
      w.marshal (assemble w s tagsFolder componentsFile files).1 = .ok bytes →
      (w.writeFile s outputFile bytes 0o644).1 = none →
        (bundleOpenAPIFiles w s tagsFolder componentsFile outputFile).err = none := by
  refine ⟨?_, ?_, ?_, ?_⟩
  · intro cw hl hlen
    rw [assemble_eq]
    unfold loadComponents
    simp [hl, hlen]
  · intro cw hl hlen
    rw [assemble_eq]
    unfold loadComponents
    simp only [hl, hlen, if_false]
    exact ⟨rfl, rfl⟩
  · intro err hl
    rw [assemble_eq]
    unfold loadComponents
    simp only [hl]
    exact ⟨rfl, rfl⟩
  · intro outputFile bytes hdir hm hw
    rcases hw' : w.writeFile s outputFile bytes 0o644 with ⟨_ | cause, s'⟩
    · rw [bundle_of_write_ok hdir hm hw']
    · rw [hw'] at hw
      cases hw

/-- C5 on a components file that reads `components: {}`: the `components` map
of the document is empty, the warning is printed, and the call succeeds. -/
theorem C5_components_from_file_witness :
    loadYAMLFile demoWorld demoEmptyComponentsFS demoWorld.unmarshalComponents
        "/srv/components/components.yaml" = .ok ⟨∅⟩ ∧
    (assemble demoWorld demoEmptyComponentsFS "/srv/tags" "/srv/components/components.yaml"
        demoListing).1.Components = ∅ ∧
    "Warning: 'components' section is empty or not found in /srv/components/components.yaml\n" ∈
      (assemble demoWorld demoEmptyComponentsFS "/srv/tags" "/srv/components/components.yaml"
        demoListing).2 ∧
    (bundleOpenAPIFiles demoWorld demoEmptyComponentsFS "/srv/tags"
        "/srv/components/components.yaml" "/srv/out.yaml").err = none :=
  have h := C5_components_from_file demoWorld demoEmptyComponentsFS "/srv/tags"
    "/srv/components/components.yaml" demoListing
  have h2 := h.2.1 ⟨∅⟩ rfl (by decide)
  ⟨rfl, h2.1, by rw [h2.2]; simp, h.2.2.2 "/srv/out.yaml" "openapi: 3.0.2\n" rfl rfl rfl⟩

/-- C6, as the specification states it, fails: on the command line `-bogus`
the working directory is known and the bundle would succeed, and `main` exits
with code 2, neither 1 nor 0. -/
theorem C6_exit_code_counterexample :
    (main demoWorld demoFS ["-bogus"]).code = 2 ∧
    demoWorld.getwd demoFS = .ok "/srv" ∧
    (bundleOpenAPIFiles demoWorld demoFS (demoWorld.join ["/srv", "tags"])
      (demoWorld.join ["/srv", "components", "components.yaml"])
      (demoWorld.join ["/srv", "collabsvc_bundled.yaml"])).err = none :=
  ⟨by decide, rfl, by decide⟩

/-- C6, amended. `bundleOpenAPIFiles` returns an error exactly when the tags
directory cannot be read, or the assembled document cannot be serialized, or the
bytes cannot be written; whether fragments or the components file load plays no
part.  `main` exits with code 2 exactly when `flag.Parse` rejects the command
line, with code 1 exactly when the command line is accepted and the working
directory is unknown or `bundleOpenAPIFiles` returns an error, and with code 0
otherwise; on `-h` or `-help` it exits with code 0, and on a rejected command
line with code 2, having printed nothing on standard output and with the
filesystem as before. -/
theorem C6_failure_and_exit_code (w : World σ V) (s : σ)
    (tagsFolder componentsFile outputFile : String) (args : List String) :
    ((bundleOpenAPIFiles w s tagsFolder componentsFile outputFile).err ≠ none ↔
      (∃ cause, w.readDir s tagsFolder = .error cause) ∨
      (∃ files cause, w.readDir s tagsFolder = .ok files ∧
        w.marshal (assemble w s tagsFolder componentsFile files).1 = .error cause) ∨
      (∃ files bytes cause, w.readDir s tagsFolder = .ok files ∧
        w.marshal (assemble w s tagsFolder componentsFile files).1 = .ok bytes ∧
        (w.writeFile s outputFile bytes 0o644).1 = some cause)) ∧
    (∀ out, flagParse args "collabsvc_bundled.yaml" = .parsed out →
      ((main w s args).code = 1 ↔
        (∃ cause, w.getwd s = .error cause) ∨
        ∃ base, w.getwd s = .ok base ∧
          (bundleOpenAPIFiles w s (w.join [base, "tags"])
            (w.join [base, "components", "components.yaml"])
            (w.join [base, out])).err ≠ none) ∧
      ((main w s args).code ≠ 1 → (main w s args).code = 0)) ∧
    (∀ msg, flagParse args "collabsvc_bundled.yaml" = .failed msg →
      (main w s args).code = 2 ∧ (main w s args).state = s ∧ (main w s args).stdout = []) ∧
    (flagParse args "collabsvc_bundled.yaml" = .help →
      (main w s args).code = 0 ∧ (main w s args).state = s ∧ (main w s args).stdout = []) ∧
    ((main w s args).code = 2 ↔ ∃ msg, flagParse args "collabsvc_bundled.yaml" = .failed msg) ∧
    ((main w s args).code = 1 ↔
      ∃ out, flagParse args "collabsvc_bundled.yaml" = .parsed out ∧
        ((∃ cause, w.getwd s = .error cause) ∨
          ∃ base, w.getwd s = .ok base ∧
            (bundleOpenAPIFiles w s (w.join [base, "tags"])
              (w.join [base, "components", "components.yaml"])
              (w.join [base, out])).err ≠ none)) ∧
    ((main w s args).code ≠ 1 → (main w s args).code ≠ 2 → (main w s args).code = 0) := by
  have hparsed : ∀ out, flagParse args "collabsvc_bundled.yaml" = .parsed out →
      ((main w s args).code = 1 ↔
        (∃ cause, w.getwd s = .error cause) ∨
        ∃ base, w.getwd s = .ok base ∧
          (bundleOpenAPIFiles w s (w.join [base, "tags"])
            (w.join [base, "components", "components.yaml"])
            (w.join [base, out])).err ≠ none) ∧
      ((main w s args).code ≠ 1 → (main w s args).code = 0) := by
    intro out hflag
    unfold main
    simp only [hflag]
    cases hwd : w.getwd s with
    | error cause => simp
    | ok base =>
      simp only
      cases hb : (bundleOpenAPIFiles w s (w.join [base, "tags"])
          (w.join [base, "components", "components.yaml"]) (w.join [base, out])).err with
      | none => simp [hb]
      | some err => simp [hb]
  have hfailed : ∀ msg, flagParse args "collabsvc_bundled.yaml" = .failed msg →
      (main w s args).code = 2 ∧ (main w s args).state = s ∧ (main w s args).stdout = [] := by
    intro msg hflag
    unfold main
    simp [hflag]
  have hhelp : flagParse args "collabsvc_bundled.yaml" = .help →
      (main w s args).code = 0 ∧ (main w s args).state = s ∧ (main w s args).stdout = [] := by
    intro hflag
    unfold main
    simp [hflag]
  refine ⟨?_, hparsed, hfailed, hhelp, ?_, ?_, ?_⟩
  · cases hdir : w.readDir s tagsFolder with
    | error cause =>
      rw [bundle_of_readDir_error componentsFile outputFile hdir]
      simp
    | ok files =>
      cases hm : w.marshal (assemble w s tagsFolder componentsFile files).1 with
      | error cause =>
        rw [bundle_of_marshal_error outputFile hdir hm]
        simp [hm]
      | ok bytes =>
        rcases hw : w.writeFile s outputFile bytes 0o644 with ⟨_ | cause, s'⟩
        · rw [bundle_of_write_ok hdir hm hw]
          simp [hm, hw]
        · rw [bundle_of_write_error hdir hm hw]
          simp [hm, hw]
  · cases hflag : flagParse args "collabsvc_bundled.yaml" with
    | parsed out =>
      have h := (hparsed out hflag).2
      constructor
      · intro h2
        by_cases h1 : (main w s args).code = 1
        · rw [h1] at h2
          cases h2
        · rw [h h1] at h2
          cases h2
      · rintro ⟨msg, hmsg⟩
        cases hmsg
    | help =>
      constructor
      · intro h2
        rw [(hhelp hflag).1] at h2
        cases h2
      · rintro ⟨msg, hmsg⟩
        cases hmsg
    | failed msg => exact ⟨fun _ => ⟨msg, rfl⟩, fun _ => (hfailed msg hflag).1⟩
  · cases hflag : flagParse args "collabsvc_bundled.yaml" with
    | parsed out =>
      rw [(hparsed out hflag).1]
      constructor
      · intro h
        exact ⟨out, rfl, h⟩
      · rintro ⟨out', hout', h⟩
        cases hout'
        exact h
    | help =>
      constructor
      · intro h1
        rw [(hhelp hflag).1] at h1
        cases h1
      · rintro ⟨out, hout, -⟩
        cases hout
    | failed msg =>
      constructor
      · intro h1
        rw [(hfailed msg hflag).1] at h1
        cases h1
      · rintro ⟨out, hout, -⟩
        cases hout
  · intro h1 h2
    cases hflag : flagParse args "collabsvc_bundled.yaml" with
    | parsed out => exact (hparsed out hflag).2 h1
    | help => exact (hhelp hflag).1
    | failed msg => exact absurd (hfailed msg hflag).1 h2

/-- C6, amended, in `demoWorld`: `-output locked.yaml` is accepted, the output
file cannot be written, and `main` exits with code 1; `-bogus` and `-output`
without a value are rejected and `main` exits with code 2; `-h` and `-help` ask
for help and `main` exits with code 0; without arguments the bundle is written
and `main` exits with code 0. -/
theorem C6_failure_and_exit_code_witness :
    flagParse ["-output", "locked.yaml"] "collabsvc_bundled.yaml" = .parsed "locked.yaml" ∧
    (main demoWorld demoFS ["-output", "locked.yaml"]).code = 1 ∧
    flagParse ["-bogus"] "collabsvc_bundled.yaml" =
      .failed "flag provided but not defined: -bogus" ∧
    (main demoWorld demoFS ["-bogus"]).code = 2 ∧
    (main demoWorld demoFS ["-bogus"]).state = demoFS ∧
    flagParse ["-output"] "collabsvc_bundled.yaml" =
      .failed "flag needs an argument: -output" ∧
    (main demoWorld demoFS ["-output"]).code = 2 ∧
    flagParse ["-h"] "collabsvc_bundled.yaml" = .help ∧
    (main demoWorld demoFS ["-h"]).code = 0 ∧
    (main demoWorld demoFS ["-h"]).state = demoFS ∧
    flagParse ["--help"] "collabsvc_bundled.yaml" = .help ∧
    (main demoWorld demoFS ["--help"]).stdout = [] ∧
    flagParse [] "collabsvc_bundled.yaml" = .parsed "collabsvc_bundled.yaml" ∧
    (main demoWorld demoFS []).code = 0 :=
  have h := fun args => C6_failure_and_exit_code demoWorld demoFS "/srv/tags"
    "/srv/components/components.yaml" "/srv/out.yaml" args
  ⟨rfl,
    ((h ["-output", "locked.yaml"]).2.1 "locked.yaml" rfl).1.2 (Or.inr ⟨"/srv", rfl, by decide⟩),
    rfl,
    ((h ["-bogus"]).2.2.1 "flag provided but not defined: -bogus" rfl).1,
    ((h ["-bogus"]).2.2.1 "flag provided but not defined: -bogus" rfl).2.1,
    rfl,
    (h ["-output"]).2.2.2.2.1.2 ⟨"flag needs an argument: -output", rfl⟩,
    rfl,
    ((h ["-h"]).2.2.2.1 rfl).1,
    ((h ["-h"]).2.2.2.1 rfl).2.1,
    rfl,
    ((h ["--help"]).2.2.2.1 rfl).2.2,
    rfl,
    ((h []).2.1 "collabsvc_bundled.yaml" rfl).2 (by decide)⟩

/-- C7, as the specification states it, fails: when the serializer rejects the
document the returned message names neither the output file nor the tags
folder. -/
theorem C7_serialization_counterexample :
    (bundleOpenAPIFiles demoWorldNoMarshal demoFS "/srv/tags"
      "/srv/components/components.yaml" "/srv/out.yaml").err =
      some "error saving bundled file: error marshaling data to YAML: yaml: cannot marshal invalid UTF-8 data as !!str" ∧
    ¬ Contains
      "error saving bundled file: error marshaling data to YAML: yaml: cannot marshal invalid UTF-8 data as !!str"
      "/srv/out.yaml" ∧
    ¬ Contains
      "error saving bundled file: error marshaling data to YAML: yaml: cannot marshal invalid UTF-8 data as !!str"
      "/srv/tags" :=
  ⟨by decide, by decide, by decide⟩

/-- C7, amended. When the tags directory cannot be read the returned message
contains the tags folder path and the cause; when the output file cannot be
written it contains the output file path and the cause; when the document
cannot be serialized it is `error saving bundled file: error marshaling data to
YAML: ` followed by the cause, which it therefore contains, and no path is part
of it. -/
theorem C7_error_messages (w : World σ V) (s : σ)
    (tagsFolder componentsFile outputFile : String) :
    (∀ cause, w.readDir s tagsFolder = .error cause →
      ∃ msg, (bundleOpenAPIFiles w s tagsFolder componentsFile outputFile).err = some msg ∧
        Contains msg tagsFolder ∧ Contains msg cause) ∧
    (∀ files bytes cause, w.readDir s tagsFolder = .ok files →
      w.marshal (assemble w s tagsFolder componentsFile files).1 = .ok bytes →
      (w.writeFile s outputFile bytes 0o644).1 = some cause →
      ∃ msg, (bundleOpenAPIFiles w s tagsFolder componentsFile outputFile).err = some msg ∧
        Contains msg outputFile ∧ Contains msg cause) ∧
    (∀ files cause, w.readDir s tagsFolder = .ok files →
      w.marshal (assemble w s tagsFolder componentsFile files).1 = .error cause →
      (bundleOpenAPIFiles w s tagsFolder componentsFile outputFile).err =
          some ("error saving bundled file: error marshaling data to YAML: " ++ cause) ∧
        Contains ("error saving bundled file: error marshaling data to YAML: " ++ cause)
          cause) := by
  refine ⟨?_, ?_, ?_⟩
  · intro cause hdir
    refine ⟨_, by rw [bundle_of_readDir_error componentsFile outputFile hdir], ?_, ?_⟩
    · have h := contains_mid "error reading tags folder " tagsFolder (": " ++ cause)
      rwa [← String.append_assoc] at h
    · exact contains_end _ cause
  · intro files bytes cause hdir hm hw
    rcases hw' : w.writeFile s outputFile bytes 0o644 with ⟨_ | cause', s'⟩
    · rw [hw'] at hw
      cases hw
    · rw [hw'] at hw
      cases hw
      refine ⟨_, by rw [bundle_of_write_error hdir hm hw'], ?_, ?_⟩
      · apply contains_append_right
        have h := contains_mid "error writing file " outputFile (": " ++ cause)
        rwa [← String.append_assoc] at h
      · apply contains_append_right
        exact contains_end _ cause
  · intro files cause hdir hm
    refine ⟨?_, contains_end _ cause⟩
    rw [bundle_of_marshal_error outputFile hdir hm]
    have hs : "error saving bundled file: " ++ ("error marshaling data to YAML: " ++ cause) =
        "error saving bundled file: error marshaling data to YAML: " ++ cause := by
      rw [← String.append_assoc]
      rfl
    rw [hs]

/-- C7, amended, in `demoWorld`: writing `/srv/locked.yaml` is refused and the
returned message contains that path. -/
theorem C7_error_messages_witness :
    demoWorld.readDir demoFS "/srv/tags" = .ok demoListing ∧
    (demoWorld.writeFile demoFS "/srv/locked.yaml" "openapi: 3.0.2\n" 0o644).1 =
      some "open /srv/locked.yaml: permission denied" ∧
    ∃ msg, (bundleOpenAPIFiles demoWorld demoFS "/srv/tags" "/srv/components/components.yaml"
        "/srv/locked.yaml").err = some msg ∧
      Contains msg "/srv/locked.yaml" ∧ Contains msg "open /srv/locked.yaml: permission denied" :=
  ⟨rfl, rfl,
    (C7_error_messages demoWorld demoFS "/srv/tags" "/srv/components/components.yaml"
      "/srv/locked.yaml").2.1 demoListing "openapi: 3.0.2\n"
      "open /srv/locked.yaml: permission denied" rfl rfl rfl⟩

/-- C8. When `bundleOpenAPIFiles` succeeds, the directory was listed and the
assembled document was serialized and written, and that document has the fixed
header: `openapi` 3.0.2, the fixed `info`, `externalDocs`, the one server and
the six tags in their order; every key of a parsed fragment is a key of
`paths`. -/
theorem C8_header_fixed (w : World σ V) (s : σ)
    (tagsFolder componentsFile outputFile : String)
    (hok : (bundleOpenAPIFiles w s tagsFolder componentsFile outputFile).err = none) :
    ∃ files bytes, w.readDir s tagsFolder = .ok files ∧
      w.marshal (assemble w s tagsFolder componentsFile files).1 = .ok bytes ∧
      (w.writeFile s outputFile bytes 0o644).1 = none ∧
      (assemble w s tagsFolder componentsFile files).1.OpenAPI = "3.0.2" ∧
      (assemble w s tagsFolder componentsFile files).1.Info =
        ⟨"Creo Collaboration service", "API specification for Creo Collaboration service",
          "1.0.71"⟩ ∧
      (assemble w s tagsFolder componentsFile files).1.ExternalDocs =
        ⟨"Error Codes Documentation",
          "https://gitlab.rd-services.aws.ptc.com/creo/cgm/collabsvc/-/blob/master/errors/error_codes.go"⟩ ∧
      (assemble w s tagsFolder componentsFile files).1.Servers =
        [⟨"https://creo.staging.atlas.ptc.com/collabsvc/api/cs"⟩] ∧
      (assemble w s tagsFolder componentsFile files).1.Tags =
        [⟨"Sessions", "Session endpoints"⟩, ⟨"Branches", "Branches endpoints"⟩,
          ⟨"Checkpoints", "Checkpoint endpoints"⟩, ⟨"Chapters", "Chapters endpoints"⟩,
          ⟨"Comments", "Comments endpoints"⟩,
          ⟨"ConnectionSpeed", "ConnectionSpeed endpoints"⟩] ∧
      ∀ e ∈ files, isFragment e = true → ∀ m, loadFragment w s tagsFolder e = .ok m →
        ∀ k, k ∈ m → k ∈ (assemble w s tagsFolder componentsFile files).1.Paths := by
  obtain ⟨files, bytes, hdir, hm, hw⟩ := bundle_ok_inv hok
  have hh := assemble_header w s tagsFolder componentsFile files
  refine ⟨files, bytes, hdir, hm, hw, congrArg OpenAPISpec.OpenAPI hh,
    congrArg OpenAPISpec.Info hh, congrArg OpenAPISpec.ExternalDocs hh,
    congrArg OpenAPISpec.Servers hh, congrArg OpenAPISpec.Tags hh, ?_⟩
  intro e he hf m hl k hk
  rw [assemble_paths, mem_foldl_rangeAssign]
  exact Or.inl ⟨m, mem_parsedFragments.2 ⟨e, he, hf, hl⟩, hk⟩

/-- C8 in `demoWorld`: bundling into `/srv/out.yaml` succeeds, and the document
that was serialized has `openapi` 3.0.2 and six tags, `Sessions` first. -/
theorem C8_header_fixed_witness :
    (bundleOpenAPIFiles demoWorld demoFS "/srv/tags" "/srv/components/components.yaml"
      "/srv/out.yaml").err = none ∧
    ∃ files, demoWorld.readDir demoFS "/srv/tags" = .ok files ∧
      (assemble demoWorld demoFS "/srv/tags" "/srv/components/components.yaml"
        files).1.OpenAPI = "3.0.2" ∧
      ((assemble demoWorld demoFS "/srv/tags" "/srv/components/components.yaml"
        files).1.Tags.map Tag.Name).take 1 = ["Sessions"] ∧
      (assemble demoWorld demoFS "/srv/tags" "/srv/components/components.yaml"
        files).1.Tags.length = 6 :=
  ⟨by decide,
    match C8_header_fixed demoWorld demoFS "/srv/tags" "/srv/components/components.yaml"
      "/srv/out.yaml" (by decide) with
    | ⟨files, _, hdir, _, _, hopen, _, _, _, htags, _⟩ =>
      ⟨files, hdir, hopen, by rw [htags]; rfl, by rw [htags]; rfl⟩⟩

end Claims

end OpenAPIBundle
